import Mathlib

/-!
# Verification of the `rusting-dithering` core (`src/api/main.rs`)

Shallow embedding of the dithering engine: a grayscale image (`GrayImage`,
modelled by `Grid`) is transformed by one of four algorithms
(`floyd_steinberg_dither`, `atkinson_dither`, `ordered_dither`,
`threshold_dither`), selected by `select_algorithm`.

Modelling conventions:
* `u8` samples are natural numbers; `Grid.Wf` records the `≤ 255` range that
  the Rust type enforces.
* The mutable `ImageBuffer` is threaded explicitly: `put_pixel` becomes a
  functional update, the nested `for y { for x { .. } }` loops become a left
  fold over the raster-order coordinate list `raster`.
* `i16` / `i32` arithmetic is modelled on `ℤ` (no overflow occurs for `u8`
  samples, all intermediates stay far inside the machine ranges).
* The Floyd–Steinberg inner loop computes in `f32`.  For `u8` samples the
  quantities involved are dyadic rationals with denominator 16 whose scaled
  numerators stay below `2 ^ 24` in magnitude, so every `f32` operation in the
  loop is exact; the embedding therefore computes the numerator
  `16 * v + error * k` exactly on `ℤ` and divides by 16 at the end
  (`fsUpdate`).  The Rust `as u8` cast truncates toward zero, which on the
  clamped (hence nonnegative) value is plain division by 16.
* Rust's `i16` division truncates toward zero, which is `Int.tdiv`.
-/

/-- A grayscale image (`GrayImage`): a width, a height and the sample buffer,
abstracted as a function from coordinates `(x, y)` to the sample value. -/
structure Grid where
  width : ℕ
  height : ℕ
  data : ℕ → ℕ → ℕ

/-- `img.get_pixel(x, y)[0]` (total version; the bounds-checked variant used
for the safety claim is `getPixelChecked`). -/
def getPixel (g : Grid) (x y : ℕ) : ℕ := g.data x y

/-- `img.put_pixel(x, y, Luma([v]))` as a functional update. -/
def putPixel (g : Grid) (x y v : ℕ) : Grid :=
  { g with data := fun i j => if i = x ∧ j = y then v else g.data i j }

/-- Samples fit in a `u8`, as the Rust `GrayImage` type guarantees. -/
def Grid.Wf (g : Grid) : Prop := ∀ x y, g.data x y ≤ 255

/-- `GrayImage::new(width, height)`: a zero-initialised buffer. -/
def Grid.new (w h : ℕ) : Grid := ⟨w, h, fun _ _ => 0⟩

/-- The raster-order pixel enumeration produced by the nested loops
`for y in 0..height { for x in 0..width { .. } }`. -/
def raster (w h : ℕ) : List (ℕ × ℕ) :=
  (List.range h).flatMap fun y => (List.range w).map fun x => (x, y)

/-- Rust's `x.clamp(0, 255)` on `i16`/scaled values: `min (max x lo) hi`. -/
def clampI (x lo hi : ℤ) : ℤ := min (max x lo) hi

/-- One neighbour update of the Floyd–Steinberg inner loop, computed on exact
scaled integers: the `f32` value `v + error * (k / 16)` equals
`(16 * v + error * k) / 16`, all `f32` steps being exact for `u8` data; the
clamp to `[0, 255]` becomes a clamp of the numerator to `[0, 4080]`, and the
truncating `as u8` cast becomes division by 16 of the (nonnegative) clamped
numerator. -/
def fsUpdate (v : ℕ) (error : ℤ) (k : ℕ) : ℕ :=
  (clampI (16 * (v : ℤ) + error * (k : ℤ)) 0 4080).toNat / 16

/-- The `(dx, dy, factor)` table of `floyd_steinberg_dither`; the factor
`k / 16.0` is recorded by its numerator `k`. -/
def fsOffsets : List (ℤ × ℤ × ℕ) :=
  [(1, 0, 7), (-1, 1, 3), (0, 1, 5), (1, 1, 1)]

/-- The error-diffusion inner loop of `floyd_steinberg_dither`: each offset in
turn, a bounds check, then the neighbour update. -/
def diffuseFS (w h x y : ℕ) (error : ℤ) (L : List (ℤ × ℤ × ℕ)) (g : Grid) :
    Grid :=
  L.foldl
    (fun d o =>
      let nx : ℤ := (x : ℤ) + o.1
      let ny : ℤ := (y : ℤ) + o.2.1
      if 0 ≤ nx ∧ nx < (w : ℤ) ∧ 0 ≤ ny ∧ ny < (h : ℤ) then
        putPixel d nx.toNat ny.toNat
          (fsUpdate (getPixel d nx.toNat ny.toNat) error o.2.2)
      else d)
    g

/-- The body of the `floyd_steinberg_dither` loops for one pixel: binarise at
128, write the new value, then diffuse the error `old - new`. -/
def floydStep (w h : ℕ) (g : Grid) (c : ℕ × ℕ) : Grid :=
  let oldPixel : ℤ := (getPixel g c.1 c.2 : ℤ)
  let newPixel : ℤ := if oldPixel < 128 then 0 else 255
  diffuseFS w h c.1 c.2 (oldPixel - newPixel) fsOffsets
    (putPixel g c.1 c.2 newPixel.toNat)

/-- `floyd_steinberg_dither`: clone the image, then the raster-order pass. -/
def floyd_steinberg_dither (img : Grid) : Grid :=
  (raster img.width img.height).foldl (floydStep img.width img.height) img

/-- The constant `BAYER4` 4×4 threshold matrix, indexed `[row][col]` (the
catch-all is never reached: the indices are taken `% 4`). -/
def BAYER4 (r c : ℕ) : ℕ :=
  match r, c with
  | 0, 0 => 15 | 0, 1 => 135 | 0, 2 => 45 | 0, 3 => 165
  | 1, 0 => 195 | 1, 1 => 75 | 1, 2 => 225 | 1, 3 => 105
  | 2, 0 => 60 | 2, 1 => 180 | 2, 2 => 30 | 2, 3 => 150
  | 3, 0 => 240 | 3, 1 => 120 | 3, 2 => 210 | 3, 3 => 90
  | _, _ => 0

/-- `ordered_dither`: a fresh buffer, and for every pixel in raster order the
comparison of the sample against `BAYER4[y % 4][x % 4]`. -/
def ordered_dither (img : Grid) : Grid :=
  (raster img.width img.height).foldl
    (fun d c =>
      putPixel d c.1 c.2
        (if BAYER4 (c.2 % 4) (c.1 % 4) < getPixel img c.1 c.2 then 255 else 0))
    (Grid.new img.width img.height)

/-- The `(dx, dy)` table of `atkinson_dither`. -/
def atkOffsets : List (ℤ × ℤ) := [(1, 0), (2, 0), (-1, 1), (0, 1), (1, 1), (0, 2)]

/-- One neighbour update of the Atkinson inner loop: add the reduced error and
clamp to `[0, 255]` (`i16` arithmetic, exact on `ℤ`). -/
def atkUpdate (v : ℕ) (error : ℤ) : ℕ := (clampI ((v : ℤ) + error) 0 255).toNat

/-- The error-diffusion inner loop of `atkinson_dither`. -/
def diffuseAtk (w h x y : ℕ) (error : ℤ) (L : List (ℤ × ℤ)) (g : Grid) : Grid :=
  L.foldl
    (fun d o =>
      let nx : ℤ := (x : ℤ) + o.1
      let ny : ℤ := (y : ℤ) + o.2
      if 0 ≤ nx ∧ nx < (w : ℤ) ∧ 0 ≤ ny ∧ ny < (h : ℤ) then
        putPixel d nx.toNat ny.toNat (atkUpdate (getPixel d nx.toNat ny.toNat) error)
      else d)
    g

/-- The body of the `atkinson_dither` loops for one pixel: binarise at 128,
write the new value, then diffuse `(old - new) / 8` (truncating `i16`
division, `Int.tdiv`). -/
def atkinsonStep (w h : ℕ) (g : Grid) (c : ℕ × ℕ) : Grid :=
  let oldPixel : ℤ := (getPixel g c.1 c.2 : ℤ)
  let newPixel : ℤ := if oldPixel < 128 then 0 else 255
  diffuseAtk w h c.1 c.2 ((oldPixel - newPixel).tdiv 8) atkOffsets
    (putPixel g c.1 c.2 newPixel.toNat)

/-- `atkinson_dither`: clone the image, then the raster-order pass. -/
def atkinson_dither (img : Grid) : Grid :=
  (raster img.width img.height).foldl (atkinsonStep img.width img.height) img

/-- `threshold_dither`: a fresh buffer, and for every pixel the comparison of
the sample against the threshold (strict `>`). -/
def threshold_dither (img : Grid) (threshold : ℕ) : Grid :=
  (raster img.width img.height).foldl
    (fun d c =>
      putPixel d c.1 c.2 (if threshold < getPixel img c.1 c.2 then 255 else 0))
    (Grid.new img.width img.height)

/-- `select_algorithm`: the Rust `match` on the identifier string, compiled to
successive equality tests with the default branch `threshold_dither(img, 128)`. -/
def select_algorithm (alg_type : String) (img : Grid) : Grid :=
  if alg_type = "floyd-steinberg" then floyd_steinberg_dither img
  else if alg_type = "ordered" then ordered_dither img
  else if alg_type = "atkinson" then atkinson_dither img
  else threshold_dither img 128

/-- The linear raster enumeration: cell `n` is `(n % w, n / w)`.  It agrees
with `raster` (`raster_eq_rasterLin`) and makes the raster position of a cell
its own index. -/
def rasterLin (w k : ℕ) : List (ℕ × ℕ) :=
  (List.range k).map fun n => (n % w, n / w)

/-- The grid after processing the first `k` raster cells with a given
per-pixel step (used to state the loop invariant of the two error-diffusion
passes). -/
def processPrefix (step : Grid → ℕ × ℕ → Grid) (w : ℕ) (img : Grid) (k : ℕ) :
    Grid :=
  (rasterLin w k).foldl step img

/-- A left fold in the `Option` monad (explicit, so that its equations are
transparent): the first failing access aborts the whole pass. -/
def foldlMO {α : Type} (f : Grid → α → Option Grid) : List α → Grid → Option Grid
  | [], g => some g
  | a :: L, g => (f g a).bind fun g1 => foldlMO f L g1

/-- `get_pixel` with the bounds check of the Rust `ImageBuffer` accessor made
explicit: out of bounds is a failure (`none`) instead of a panic. -/
def getPixelChecked (g : Grid) (x y : ℕ) : Option ℕ :=
  if x < g.width ∧ y < g.height then some (g.data x y) else none

/-- `put_pixel` with the bounds check made explicit. -/
def putPixelChecked (g : Grid) (x y v : ℕ) : Option Grid :=
  if x < g.width ∧ y < g.height then some (putPixel g x y v) else none

/-- The Floyd–Steinberg inner loop with every buffer access checked. -/
def diffuseFSChecked (w h x y : ℕ) (error : ℤ) (L : List (ℤ × ℤ × ℕ))
    (g : Grid) : Option Grid :=
  foldlMO
    (fun d o =>
      let nx : ℤ := (x : ℤ) + o.1
      let ny : ℤ := (y : ℤ) + o.2.1
      if 0 ≤ nx ∧ nx < (w : ℤ) ∧ 0 ≤ ny ∧ ny < (h : ℤ) then
        (getPixelChecked d nx.toNat ny.toNat).bind fun nv =>
          putPixelChecked d nx.toNat ny.toNat (fsUpdate nv error o.2.2)
      else some d)
    L g

/-- The `floyd_steinberg_dither` pixel body with every buffer access checked. -/
def floydStepChecked (w h : ℕ) (g : Grid) (c : ℕ × ℕ) : Option Grid :=
  (getPixelChecked g c.1 c.2).bind fun oldNat =>
    let oldPixel : ℤ := (oldNat : ℤ)
    let newPixel : ℤ := if oldPixel < 128 then 0 else 255
    (putPixelChecked g c.1 c.2 newPixel.toNat).bind fun g1 =>
      diffuseFSChecked w h c.1 c.2 (oldPixel - newPixel) fsOffsets g1

/-- `floyd_steinberg_dither` with every buffer access checked. -/
def floydChecked (img : Grid) : Option Grid :=
  foldlMO (floydStepChecked img.width img.height) (raster img.width img.height) img

/-- The Atkinson inner loop with every buffer access checked. -/
def diffuseAtkChecked (w h x y : ℕ) (error : ℤ) (L : List (ℤ × ℤ))
    (g : Grid) : Option Grid :=
  foldlMO
    (fun d o =>
      let nx : ℤ := (x : ℤ) + o.1
      let ny : ℤ := (y : ℤ) + o.2
      if 0 ≤ nx ∧ nx < (w : ℤ) ∧ 0 ≤ ny ∧ ny < (h : ℤ) then
        (getPixelChecked d nx.toNat ny.toNat).bind fun nv =>
          putPixelChecked d nx.toNat ny.toNat (atkUpdate nv error)
      else some d)
    L g

/-- The `atkinson_dither` pixel body with every buffer access checked. -/
def atkinsonStepChecked (w h : ℕ) (g : Grid) (c : ℕ × ℕ) : Option Grid :=
  (getPixelChecked g c.1 c.2).bind fun oldNat =>
    let oldPixel : ℤ := (oldNat : ℤ)
    let newPixel : ℤ := if oldPixel < 128 then 0 else 255
    (putPixelChecked g c.1 c.2 newPixel.toNat).bind fun g1 =>
      diffuseAtkChecked w h c.1 c.2 ((oldPixel - newPixel).tdiv 8) atkOffsets g1

/-- `atkinson_dither` with every buffer access checked. -/
def atkinsonChecked (img : Grid) : Option Grid :=
  foldlMO (atkinsonStepChecked img.width img.height) (raster img.width img.height) img

/-- `ordered_dither` with every buffer access checked. -/
def orderedChecked (img : Grid) : Option Grid :=
  foldlMO
    (fun d c =>
      (getPixelChecked img c.1 c.2).bind fun p =>
        putPixelChecked d c.1 c.2 (if BAYER4 (c.2 % 4) (c.1 % 4) < p then 255 else 0))
    (raster img.width img.height) (Grid.new img.width img.height)

/-- `threshold_dither` with every buffer access checked. -/
def thresholdChecked (img : Grid) (threshold : ℕ) : Option Grid :=
  foldlMO
    (fun d c =>
      (getPixelChecked img c.1 c.2).bind fun p =>
        putPixelChecked d c.1 c.2 (if threshold < p then 255 else 0))
    (raster img.width img.height) (Grid.new img.width img.height)

/-- The neighbour update written the way the spec words it (`fsUpdateSpec`
"follows the spec's words"): the receiving pixel's value becomes
`clamp(currentValue + E * (k/16), 0, 255)` truncated toward zero — on the
clamped, nonnegative value truncation toward zero is the floor. -/
def fsUpdateSpec (v : ℕ) (error : ℤ) (k : ℕ) : ℕ :=
  (⌊min (max ((v : ℚ) + (error : ℚ) * ((k : ℚ) / 16)) 0) 255⌋).toNat

/-- The spec's 2×2 fixture `[[100, 150], [200, 50]]` (row-major). -/
def sampleGrid : Grid :=
  ⟨2, 2, fun x y =>
    if x = 0 ∧ y = 0 then 100
    else if x = 1 ∧ y = 0 then 150
    else if x = 0 ∧ y = 1 then 200
    else if x = 1 ∧ y = 1 then 50
    else 0⟩

/-- A 2×2 already-binarised grid, used to witness the idempotence claim. -/
def binGrid : Grid :=
  ⟨2, 2, fun x y => if (x + y) % 2 = 0 then 0 else 255⟩

example : getPixel (floyd_steinberg_dither sampleGrid) 0 0 = 0 := by decide
example : getPixel (floyd_steinberg_dither sampleGrid) 1 0 = 255 := by decide
example : getPixel (atkinson_dither sampleGrid) 1 1 = 0 := by decide
example : getPixel (ordered_dither sampleGrid) 0 0 = 255 := by decide
example : getPixel (threshold_dither sampleGrid 128) 0 1 = 255 := by decide
example : (floydChecked sampleGrid).isSome = true := by decide
example : (atkinsonChecked sampleGrid).isSome = true := by decide

/-! ## Basic access and fold lemmas -/

lemma getPixel_putPixel (g : Grid) (x y v i j : ℕ) :
    getPixel (putPixel g x y v) i j = if i = x ∧ j = y then v else getPixel g i j := rfl

@[simp] lemma putPixel_width (g : Grid) (x y v : ℕ) :
    (putPixel g x y v).width = g.width := rfl

@[simp] lemma putPixel_height (g : Grid) (x y v : ℕ) :
    (putPixel g x y v).height = g.height := rfl

lemma foldl_width {α : Type} (f : Grid → α → Grid) :
    ∀ (L : List α), (∀ g a, a ∈ L → (f g a).width = g.width) →
      ∀ g : Grid, (L.foldl f g).width = g.width := by
  intro L
  induction L with
  | nil => intro _ g; rfl
  | cons a L ih =>
      intro hf g
      rw [List.foldl_cons, ih (fun g b hb => hf g b (List.mem_cons_of_mem a hb)),
        hf g a (List.mem_cons_self a L)]

lemma foldl_height {α : Type} (f : Grid → α → Grid) :
    ∀ (L : List α), (∀ g a, a ∈ L → (f g a).height = g.height) →
      ∀ g : Grid, (L.foldl f g).height = g.height := by
  intro L
  induction L with
  | nil => intro _ g; rfl
  | cons a L ih =>
      intro hf g
      rw [List.foldl_cons, ih (fun g b hb => hf g b (List.mem_cons_of_mem a hb)),
        hf g a (List.mem_cons_self a L)]

lemma foldl_untouched {α : Type} (f : Grid → α → Grid) (i j : ℕ) :
    ∀ (L : List α), (∀ g a, a ∈ L → getPixel (f g a) i j = getPixel g i j) →
      ∀ g : Grid, getPixel (L.foldl f g) i j = getPixel g i j := by
  intro L
  induction L with
  | nil => intro _ g; rfl
  | cons a L ih =>
      intro hf g
      rw [List.foldl_cons, ih (fun g b hb => hf g b (List.mem_cons_of_mem a hb)),
        hf g a (List.mem_cons_self a L)]

/-! ## The raster enumeration -/

lemma raster_eq_rasterLin (w h : ℕ) : raster w h = rasterLin w (w * h) := by
  induction h with
  | zero => simp [raster, rasterLin]
  | succ h ih =>
      unfold raster rasterLin
      rw [List.range_succ, List.flatMap_append, Nat.mul_succ, List.range_add,
        List.map_append, List.map_map]
      unfold raster rasterLin at ih
      rw [ih]
      congr 1
      · simp only [List.flatMap_cons, List.flatMap_nil, List.append_nil]
        apply List.map_congr_left
        intro x hx
        have hxw : x < w := List.mem_range.mp hx
        have hw : 0 < w := by omega
        simp only [Function.comp]
        have h1 : (w * h + x) % w = x := by
          rw [Nat.mul_add_mod]
          exact Nat.mod_eq_of_lt hxw
        have h2 : (w * h + x) / w = h := by
          rw [Nat.mul_add_div hw, Nat.div_eq_of_lt hxw]
          omega
        rw [h1, h2]

lemma mem_raster (w h x y : ℕ) : (x, y) ∈ raster w h ↔ x < w ∧ y < h := by
  simp only [raster, List.mem_flatMap, List.mem_map, List.mem_range, Prod.mk.injEq]
  constructor
  · rintro ⟨b, hb, a, ha, rfl, rfl⟩
    exact ⟨ha, hb⟩
  · rintro ⟨hx, hy⟩
    exact ⟨y, hy, x, hx, rfl, rfl⟩

/-! ## The diffusion loops: unfolding, dimensions and frame lemmas -/

lemma diffuseFS_append (w h x y : ℕ) (e : ℤ) (L1 L2 : List (ℤ × ℤ × ℕ))
    (g : Grid) :
    diffuseFS w h x y e (L1 ++ L2) g =
      diffuseFS w h x y e L2 (diffuseFS w h x y e L1 g) := by
  unfold diffuseFS
  rw [List.foldl_append]

lemma diffuseFS_cons (w h x y : ℕ) (e : ℤ) (o : ℤ × ℤ × ℕ)
    (L : List (ℤ × ℤ × ℕ)) (g : Grid) :
    diffuseFS w h x y e (o :: L) g =
      diffuseFS w h x y e L
        (if 0 ≤ (x : ℤ) + o.1 ∧ (x : ℤ) + o.1 < (w : ℤ) ∧
            0 ≤ (y : ℤ) + o.2.1 ∧ (y : ℤ) + o.2.1 < (h : ℤ) then
          putPixel g ((x : ℤ) + o.1).toNat ((y : ℤ) + o.2.1).toNat
            (fsUpdate (getPixel g ((x : ℤ) + o.1).toNat ((y : ℤ) + o.2.1).toNat)
              e o.2.2)
        else g) := rfl

lemma diffuseFS_width (w h x y : ℕ) (e : ℤ) (L : List (ℤ × ℤ × ℕ)) (g : Grid) :
    (diffuseFS w h x y e L g).width = g.width := by
  unfold diffuseFS
  apply foldl_width
  intro g o _
  dsimp only
  split <;> rfl

lemma diffuseFS_height (w h x y : ℕ) (e : ℤ) (L : List (ℤ × ℤ × ℕ)) (g : Grid) :
    (diffuseFS w h x y e L g).height = g.height := by
  unfold diffuseFS
  apply foldl_height
  intro g o _
  dsimp only
  split <;> rfl

lemma diffuseFS_untouched (w h x y : ℕ) (e : ℤ) (i j : ℕ)
    (L : List (ℤ × ℤ × ℕ))
    (hL : ∀ o ∈ L, 0 ≤ (x : ℤ) + o.1 → (x : ℤ) + o.1 < (w : ℤ) →
      0 ≤ (y : ℤ) + o.2.1 → (y : ℤ) + o.2.1 < (h : ℤ) →
      ¬(i = ((x : ℤ) + o.1).toNat ∧ j = ((y : ℤ) + o.2.1).toNat))
    (g : Grid) :
    getPixel (diffuseFS w h x y e L g) i j = getPixel g i j := by
  unfold diffuseFS
  apply foldl_untouched
  intro g o ho
  dsimp only
  split
  next hb => rw [getPixel_putPixel, if_neg (hL o ho hb.1 hb.2.1 hb.2.2.1 hb.2.2.2)]
  next => rfl

lemma diffuseFS_value (w h x y : ℕ) (e : ℤ) (i j : ℕ)
    (L1 L2 : List (ℤ × ℤ × ℕ)) (o : ℤ × ℤ × ℕ)
    (h1 : ∀ o' ∈ L1, 0 ≤ (x : ℤ) + o'.1 → (x : ℤ) + o'.1 < (w : ℤ) →
      0 ≤ (y : ℤ) + o'.2.1 → (y : ℤ) + o'.2.1 < (h : ℤ) →
      ¬(i = ((x : ℤ) + o'.1).toNat ∧ j = ((y : ℤ) + o'.2.1).toNat))
    (h2 : ∀ o' ∈ L2, 0 ≤ (x : ℤ) + o'.1 → (x : ℤ) + o'.1 < (w : ℤ) →
      0 ≤ (y : ℤ) + o'.2.1 → (y : ℤ) + o'.2.1 < (h : ℤ) →
      ¬(i = ((x : ℤ) + o'.1).toNat ∧ j = ((y : ℤ) + o'.2.1).toNat))
    (hb : 0 ≤ (x : ℤ) + o.1 ∧ (x : ℤ) + o.1 < (w : ℤ) ∧
      0 ≤ (y : ℤ) + o.2.1 ∧ (y : ℤ) + o.2.1 < (h : ℤ))
    (hi : i = ((x : ℤ) + o.1).toNat) (hj : j = ((y : ℤ) + o.2.1).toNat)
    (g : Grid) :
    getPixel (diffuseFS w h x y e (L1 ++ o :: L2) g) i j =
      fsUpdate (getPixel g i j) e o.2.2 := by
  subst hi hj
  rw [diffuseFS_append, diffuseFS_cons, if_pos hb,
    diffuseFS_untouched w h x y e _ _ L2 h2, getPixel_putPixel,
    if_pos ⟨rfl, rfl⟩, diffuseFS_untouched w h x y e _ _ L1 h1]

lemma diffuseAtk_append (w h x y : ℕ) (e : ℤ) (L1 L2 : List (ℤ × ℤ))
    (g : Grid) :
    diffuseAtk w h x y e (L1 ++ L2) g =
      diffuseAtk w h x y e L2 (diffuseAtk w h x y e L1 g) := by
  unfold diffuseAtk
  rw [List.foldl_append]

lemma diffuseAtk_cons (w h x y : ℕ) (e : ℤ) (o : ℤ × ℤ)
    (L : List (ℤ × ℤ)) (g : Grid) :
    diffuseAtk w h x y e (o :: L) g =
      diffuseAtk w h x y e L
        (if 0 ≤ (x : ℤ) + o.1 ∧ (x : ℤ) + o.1 < (w : ℤ) ∧
            0 ≤ (y : ℤ) + o.2 ∧ (y : ℤ) + o.2 < (h : ℤ) then
          putPixel g ((x : ℤ) + o.1).toNat ((y : ℤ) + o.2).toNat
            (atkUpdate (getPixel g ((x : ℤ) + o.1).toNat ((y : ℤ) + o.2).toNat) e)
        else g) := rfl

lemma diffuseAtk_width (w h x y : ℕ) (e : ℤ) (L : List (ℤ × ℤ)) (g : Grid) :
    (diffuseAtk w h x y e L g).width = g.width := by
  unfold diffuseAtk
  apply foldl_width
  intro g o _
  dsimp only
  split <;> rfl

lemma diffuseAtk_height (w h x y : ℕ) (e : ℤ) (L : List (ℤ × ℤ)) (g : Grid) :
    (diffuseAtk w h x y e L g).height = g.height := by
  unfold diffuseAtk
  apply foldl_height
  intro g o _
  dsimp only
  split <;> rfl

lemma diffuseAtk_untouched (w h x y : ℕ) (e : ℤ) (i j : ℕ) (L : List (ℤ × ℤ))
    (hL : ∀ o ∈ L, 0 ≤ (x : ℤ) + o.1 → (x : ℤ) + o.1 < (w : ℤ) →
      0 ≤ (y : ℤ) + o.2 → (y : ℤ) + o.2 < (h : ℤ) →
      ¬(i = ((x : ℤ) + o.1).toNat ∧ j = ((y : ℤ) + o.2).toNat))
    (g : Grid) :
    getPixel (diffuseAtk w h x y e L g) i j = getPixel g i j := by
  unfold diffuseAtk
  apply foldl_untouched
  intro g o ho
  dsimp only
  split
  next hb => rw [getPixel_putPixel, if_neg (hL o ho hb.1 hb.2.1 hb.2.2.1 hb.2.2.2)]
  next => rfl

lemma diffuseAtk_value (w h x y : ℕ) (e : ℤ) (i j : ℕ)
    (L1 L2 : List (ℤ × ℤ)) (o : ℤ × ℤ)
    (h1 : ∀ o' ∈ L1, 0 ≤ (x : ℤ) + o'.1 → (x : ℤ) + o'.1 < (w : ℤ) →
      0 ≤ (y : ℤ) + o'.2 → (y : ℤ) + o'.2 < (h : ℤ) →
      ¬(i = ((x : ℤ) + o'.1).toNat ∧ j = ((y : ℤ) + o'.2).toNat))
    (h2 : ∀ o' ∈ L2, 0 ≤ (x : ℤ) + o'.1 → (x : ℤ) + o'.1 < (w : ℤ) →
      0 ≤ (y : ℤ) + o'.2 → (y : ℤ) + o'.2 < (h : ℤ) →
      ¬(i = ((x : ℤ) + o'.1).toNat ∧ j = ((y : ℤ) + o'.2).toNat))
    (hb : 0 ≤ (x : ℤ) + o.1 ∧ (x : ℤ) + o.1 < (w : ℤ) ∧
      0 ≤ (y : ℤ) + o.2 ∧ (y : ℤ) + o.2 < (h : ℤ))
    (hi : i = ((x : ℤ) + o.1).toNat) (hj : j = ((y : ℤ) + o.2).toNat)
    (g : Grid) :
    getPixel (diffuseAtk w h x y e (L1 ++ o :: L2) g) i j =
      atkUpdate (getPixel g i j) e := by
  subst hi hj
  rw [diffuseAtk_append, diffuseAtk_cons, if_pos hb,
    diffuseAtk_untouched w h x y e _ _ L2 h2, getPixel_putPixel,
    if_pos ⟨rfl, rfl⟩, diffuseAtk_untouched w h x y e _ _ L1 h1]

/-! ## The per-pixel steps: effect on the current cell and on earlier cells -/

lemma floydStep_self (w h : ℕ) (g : Grid) (x y : ℕ) :
    getPixel (floydStep w h g (x, y)) x y =
      if getPixel g x y < 128 then 0 else 255 := by
  simp only [floydStep]
  rw [diffuseFS_untouched w h x y _ x y fsOffsets ?hoff, getPixel_putPixel,
    if_pos ⟨rfl, rfl⟩]
  case hoff =>
    intro o ho h1 h2 h3 h4
    simp only [fsOffsets, List.mem_cons, List.not_mem_nil, or_false] at ho
    rcases ho with rfl | rfl | rfl | rfl <;>
      (rintro ⟨hA, hB⟩; dsimp only at hA hB; omega)
  rcases Nat.lt_or_ge (getPixel g x y) 128 with hc | hc
  · rw [if_pos (by exact_mod_cast hc), if_pos hc]
    rfl
  · rw [if_neg (by exact_mod_cast Nat.not_lt.mpr hc), if_neg (Nat.not_lt.mpr hc)]
    rfl

lemma floydStep_earlier (w h : ℕ) (g : Grid) (x y i j : ℕ)
    (hij : j * w + i < y * w + x) :
    getPixel (floydStep w h g (x, y)) i j = getPixel g i j := by
  have hoff : ∀ o ∈ fsOffsets, 0 ≤ (x : ℤ) + o.1 → (x : ℤ) + o.1 < (w : ℤ) →
      0 ≤ (y : ℤ) + o.2.1 → (y : ℤ) + o.2.1 < (h : ℤ) →
      ¬(i = ((x : ℤ) + o.1).toNat ∧ j = ((y : ℤ) + o.2.1).toNat) := by
    intro o ho h1 h2 h3 h4
    simp only [fsOffsets, List.mem_cons, List.not_mem_nil, or_false] at ho
    rcases ho with rfl | rfl | rfl | rfl <;>
      (dsimp only at h1 h2 h3 h4; rintro ⟨hA, hB⟩; dsimp only at hA hB)
    · have ei : i = x + 1 := by omega
      have ej : j = y := by omega
      rw [ei, ej] at hij
      generalize y * w = A at hij
      omega
    · have hx1 : 1 ≤ x := by omega
      have hw : 0 < w := by omega
      have ei : i = x - 1 := by omega
      have ej : j = y + 1 := by omega
      rw [ei, ej, Nat.add_one_mul] at hij
      generalize y * w = A at hij
      omega
    · have hw : 0 < w := by omega
      have ei : i = x := by omega
      have ej : j = y + 1 := by omega
      rw [ei, ej, Nat.add_one_mul] at hij
      generalize y * w = A at hij
      omega
    · have hw : 0 < w := by omega
      have ei : i = x + 1 := by omega
      have ej : j = y + 1 := by omega
      rw [ei, ej, Nat.add_one_mul] at hij
      generalize y * w = A at hij
      omega
  simp only [floydStep]
  rw [diffuseFS_untouched w h x y _ i j fsOffsets hoff, getPixel_putPixel,
    if_neg ?hcur]
  case hcur =>
    rintro ⟨rfl, rfl⟩
    exact absurd hij (lt_irrefl _)

lemma atkinsonStep_self (w h : ℕ) (g : Grid) (x y : ℕ) :
    getPixel (atkinsonStep w h g (x, y)) x y =
      if getPixel g x y < 128 then 0 else 255 := by
  simp only [atkinsonStep]
  rw [diffuseAtk_untouched w h x y _ x y atkOffsets ?hoff, getPixel_putPixel,
    if_pos ⟨rfl, rfl⟩]
  case hoff =>
    intro o ho h1 h2 h3 h4
    simp only [atkOffsets, List.mem_cons, List.not_mem_nil, or_false] at ho
    rcases ho with rfl | rfl | rfl | rfl | rfl | rfl <;>
      (rintro ⟨hA, hB⟩; dsimp only at hA hB; omega)
  rcases Nat.lt_or_ge (getPixel g x y) 128 with hc | hc
  · rw [if_pos (by exact_mod_cast hc), if_pos hc]
    rfl
  · rw [if_neg (by exact_mod_cast Nat.not_lt.mpr hc), if_neg (Nat.not_lt.mpr hc)]
    rfl

lemma atkinsonStep_earlier (w h : ℕ) (g : Grid) (x y i j : ℕ)
    (hij : j * w + i < y * w + x) :
    getPixel (atkinsonStep w h g (x, y)) i j = getPixel g i j := by
  have hoff : ∀ o ∈ atkOffsets, 0 ≤ (x : ℤ) + o.1 → (x : ℤ) + o.1 < (w : ℤ) →
      0 ≤ (y : ℤ) + o.2 → (y : ℤ) + o.2 < (h : ℤ) →
      ¬(i = ((x : ℤ) + o.1).toNat ∧ j = ((y : ℤ) + o.2).toNat) := by
    intro o ho h1 h2 h3 h4
    simp only [atkOffsets, List.mem_cons, List.not_mem_nil, or_false] at ho
    rcases ho with rfl | rfl | rfl | rfl | rfl | rfl <;>
      (dsimp only at h1 h2 h3 h4; rintro ⟨hA, hB⟩; dsimp only at hA hB)
    · have ei : i = x + 1 := by omega
      have ej : j = y := by omega
      rw [ei, ej] at hij
      generalize y * w = A at hij
      omega
    · have ei : i = x + 2 := by omega
      have ej : j = y := by omega
      rw [ei, ej] at hij
      generalize y * w = A at hij
      omega
    · have hx1 : 1 ≤ x := by omega
      have hw : 0 < w := by omega
      have ei : i = x - 1 := by omega
      have ej : j = y + 1 := by omega
      rw [ei, ej, Nat.add_one_mul] at hij
      generalize y * w = A at hij
      omega
    · have hw : 0 < w := by omega
      have ei : i = x := by omega
      have ej : j = y + 1 := by omega
      rw [ei, ej, Nat.add_one_mul] at hij
      generalize y * w = A at hij
      omega
    · have hw : 0 < w := by omega
      have ei : i = x + 1 := by omega
      have ej : j = y + 1 := by omega
      rw [ei, ej, Nat.add_one_mul] at hij
      generalize y * w = A at hij
      omega
    · have hw : 0 < w := by omega
      have ei : i = x := by omega
      have ej : j = y + 2 := by omega
      rw [ei, ej, Nat.add_mul] at hij
      generalize y * w = A at hij
      omega
  simp only [atkinsonStep]
  rw [diffuseAtk_untouched w h x y _ i j atkOffsets hoff, getPixel_putPixel,
    if_neg ?hcur]
  case hcur =>
    rintro ⟨rfl, rfl⟩
    exact absurd hij (lt_irrefl _)

lemma floydStep_width (w h : ℕ) (g : Grid) (c : ℕ × ℕ) :
    (floydStep w h g c).width = g.width := by
  simp only [floydStep]
  rw [diffuseFS_width, putPixel_width]

lemma floydStep_height (w h : ℕ) (g : Grid) (c : ℕ × ℕ) :
    (floydStep w h g c).height = g.height := by
  simp only [floydStep]
  rw [diffuseFS_height, putPixel_height]

lemma atkinsonStep_width (w h : ℕ) (g : Grid) (c : ℕ × ℕ) :
    (atkinsonStep w h g c).width = g.width := by
  simp only [atkinsonStep]
  rw [diffuseAtk_width, putPixel_width]

lemma atkinsonStep_height (w h : ℕ) (g : Grid) (c : ℕ × ℕ) :
    (atkinsonStep w h g c).height = g.height := by
  simp only [atkinsonStep]
  rw [diffuseAtk_height, putPixel_height]

/-! ## The raster pass: prefix invariants -/

lemma processPrefix_succ (step : Grid → ℕ × ℕ → Grid) (w : ℕ) (img : Grid)
    (k : ℕ) :
    processPrefix step w img (k + 1) =
      step (processPrefix step w img k) (k % w, k / w) := by
  unfold processPrefix rasterLin
  rw [List.range_succ, List.map_append, List.foldl_append]
  rfl

lemma processPrefix_binary (step : Grid → ℕ × ℕ → Grid) (w : ℕ)
    (hearlier : ∀ g x y i j, j * w + i < y * w + x →
      getPixel (step g (x, y)) i j = getPixel g i j)
    (hself : ∀ g x y, getPixel (step g (x, y)) x y =
      if getPixel g x y < 128 then 0 else 255)
    (img : Grid) :
    ∀ k m, m < k →
      getPixel (processPrefix step w img k) (m % w) (m / w) = 0 ∨
      getPixel (processPrefix step w img k) (m % w) (m / w) = 255 := by
  intro k
  induction k with
  | zero => intro m hm; exact absurd hm (Nat.not_lt_zero m)
  | succ k ih =>
      intro m hm
      rw [processPrefix_succ]
      rcases Nat.lt_succ_iff_lt_or_eq.mp hm with hlt | rfl
      · have e1 : (m / w) * w + m % w = m := by
          rw [mul_comm]
          exact Nat.div_add_mod m w
        have e2 : (k / w) * w + k % w = k := by
          rw [mul_comm]
          exact Nat.div_add_mod k w
        rw [hearlier _ _ _ _ _ (by rw [e1, e2]; exact hlt)]
        exact ih m hlt
      · rw [hself]
        split
        · exact Or.inl rfl
        · exact Or.inr rfl

lemma processPrefix_stable (step : Grid → ℕ × ℕ → Grid) (w : ℕ)
    (hearlier : ∀ g x y i j, j * w + i < y * w + x →
      getPixel (step g (x, y)) i j = getPixel g i j)
    (img : Grid) :
    ∀ k l, k ≤ l → ∀ m, m < k →
      getPixel (processPrefix step w img l) (m % w) (m / w) =
        getPixel (processPrefix step w img k) (m % w) (m / w) := by
  intro k l hkl
  induction l, hkl using Nat.le_induction with
  | base => intro m _; rfl
  | succ l hkl ih =>
      intro m hm
      rw [processPrefix_succ]
      have e1 : (m / w) * w + m % w = m := by
        rw [mul_comm]
        exact Nat.div_add_mod m w
      have e2 : (l / w) * w + l % w = l := by
        rw [mul_comm]
        exact Nat.div_add_mod l w
      rw [hearlier _ _ _ _ _ (by rw [e1, e2]; omega)]
      exact ih m hm

/-! ## Dimensions and values of the four passes -/

lemma floyd_eq_processPrefix (img : Grid) :
    floyd_steinberg_dither img =
      processPrefix (floydStep img.width img.height) img.width img
        (img.width * img.height) := by
  unfold floyd_steinberg_dither processPrefix
  rw [raster_eq_rasterLin]

lemma atkinson_eq_processPrefix (img : Grid) :
    atkinson_dither img =
      processPrefix (atkinsonStep img.width img.height) img.width img
        (img.width * img.height) := by
  unfold atkinson_dither processPrefix
  rw [raster_eq_rasterLin]

lemma floyd_width (img : Grid) :
    (floyd_steinberg_dither img).width = img.width := by
  unfold floyd_steinberg_dither
  exact foldl_width _ _ (fun g c _ => floydStep_width _ _ g c) img

lemma floyd_height (img : Grid) :
    (floyd_steinberg_dither img).height = img.height := by
  unfold floyd_steinberg_dither
  exact foldl_height _ _ (fun g c _ => floydStep_height _ _ g c) img

lemma atkinson_width (img : Grid) :
    (atkinson_dither img).width = img.width := by
  unfold atkinson_dither
  exact foldl_width _ _ (fun g c _ => atkinsonStep_width _ _ g c) img

lemma atkinson_height (img : Grid) :
    (atkinson_dither img).height = img.height := by
  unfold atkinson_dither
  exact foldl_height _ _ (fun g c _ => atkinsonStep_height _ _ g c) img

lemma ordered_width (img : Grid) :
    (ordered_dither img).width = img.width := by
  unfold ordered_dither
  exact foldl_width _ _ (fun (g : Grid) (c : ℕ × ℕ) _ => putPixel_width g c.1 c.2 _) (Grid.new _ _)

lemma ordered_height (img : Grid) :
    (ordered_dither img).height = img.height := by
  unfold ordered_dither
  exact foldl_height _ _ (fun (g : Grid) (c : ℕ × ℕ) _ => putPixel_height g c.1 c.2 _) (Grid.new _ _)

lemma threshold_width (img : Grid) (t : ℕ) :
    (threshold_dither img t).width = img.width := by
  unfold threshold_dither
  exact foldl_width _ _ (fun (g : Grid) (c : ℕ × ℕ) _ => putPixel_width g c.1 c.2 _) (Grid.new _ _)

lemma threshold_height (img : Grid) (t : ℕ) :
    (threshold_dither img t).height = img.height := by
  unfold threshold_dither
  exact foldl_height _ _ (fun (g : Grid) (c : ℕ × ℕ) _ => putPixel_height g c.1 c.2 _) (Grid.new _ _)

lemma cell_index_lt (w h x y : ℕ) (hx : x < w) (hy : y < h) :
    y * w + x < w * h := by
  have h1 : y * w + x < (y + 1) * w := by
    rw [Nat.add_one_mul]
    exact Nat.add_lt_add_left hx _
  have h2 : (y + 1) * w ≤ h * w := Nat.mul_le_mul_right w hy
  calc y * w + x < (y + 1) * w := h1
    _ ≤ h * w := h2
    _ = w * h := mul_comm h w

lemma cell_index_mod (w x y : ℕ) (hx : x < w) : (y * w + x) % w = x := by
  rw [mul_comm, Nat.mul_add_mod]
  exact Nat.mod_eq_of_lt hx

lemma cell_index_div (w x y : ℕ) (hx : x < w) : (y * w + x) / w = y := by
  rw [mul_comm, Nat.mul_add_div (by omega), Nat.div_eq_of_lt hx]
  omega

lemma floyd_binary (img : Grid) (x y : ℕ)
    (hx : x < img.width) (hy : y < img.height) :
    getPixel (floyd_steinberg_dither img) x y = 0 ∨
    getPixel (floyd_steinberg_dither img) x y = 255 := by
  have hm := cell_index_lt img.width img.height x y hx hy
  have hbin := processPrefix_binary (floydStep img.width img.height) img.width
    (fun g x y i j hij => floydStep_earlier _ _ g x y i j hij)
    (fun g x y => floydStep_self _ _ g x y) img
    (img.width * img.height) (y * img.width + x) hm
  rw [cell_index_mod img.width x y hx, cell_index_div img.width x y hx] at hbin
  rw [floyd_eq_processPrefix]
  exact hbin

lemma atkinson_binary (img : Grid) (x y : ℕ)
    (hx : x < img.width) (hy : y < img.height) :
    getPixel (atkinson_dither img) x y = 0 ∨
    getPixel (atkinson_dither img) x y = 255 := by
  have hm := cell_index_lt img.width img.height x y hx hy
  have hbin := processPrefix_binary (atkinsonStep img.width img.height) img.width
    (fun g x y i j hij => atkinsonStep_earlier _ _ g x y i j hij)
    (fun g x y => atkinsonStep_self _ _ g x y) img
    (img.width * img.height) (y * img.width + x) hm
  rw [cell_index_mod img.width x y hx, cell_index_div img.width x y hx] at hbin
  rw [atkinson_eq_processPrefix]
  exact hbin

/-! ## Pointwise values of the two stateless passes -/

lemma foldl_put_value (F : ℕ → ℕ → ℕ) :
    ∀ (L : List (ℕ × ℕ)) (g : Grid) (x y : ℕ),
      getPixel (L.foldl (fun d c => putPixel d c.1 c.2 (F c.1 c.2)) g) x y =
        if (x, y) ∈ L then F x y else getPixel g x y := by
  intro L
  induction L with
  | nil => intro g x y; simp
  | cons c L ih =>
      rcases c with ⟨cx, cy⟩
      intro g x y
      rw [List.foldl_cons, ih]
      dsimp only
      by_cases hL : (x, y) ∈ L
      · rw [if_pos hL, if_pos (List.mem_cons_of_mem (cx, cy) hL)]
      · rw [if_neg hL, getPixel_putPixel]
        by_cases hc : x = cx ∧ y = cy
        · have hmem : (x, y) ∈ (cx, cy) :: L := by
            rw [hc.1, hc.2]
            exact List.mem_cons_self _ _
          rw [if_pos hc, if_pos hmem, hc.1, hc.2]
        · have hmem : (x, y) ∉ (cx, cy) :: L := by
            rw [List.mem_cons]
            rintro (heq | hmemL)
            · rw [Prod.mk.injEq] at heq
              exact hc heq
            · exact hL hmemL
          rw [if_neg hc, if_neg hmem]

lemma ordered_get (img : Grid) (x y : ℕ)
    (hx : x < img.width) (hy : y < img.height) :
    getPixel (ordered_dither img) x y =
      if BAYER4 (y % 4) (x % 4) < getPixel img x y then 255 else 0 := by
  unfold ordered_dither
  rw [foldl_put_value
    (fun a b => if BAYER4 (b % 4) (a % 4) < getPixel img a b then 255 else 0),
    if_pos ((mem_raster _ _ _ _).mpr ⟨hx, hy⟩)]

lemma threshold_get (img : Grid) (t x y : ℕ)
    (hx : x < img.width) (hy : y < img.height) :
    getPixel (threshold_dither img t) x y =
      if t < getPixel img x y then 255 else 0 := by
  unfold threshold_dither
  rw [foldl_put_value (fun a b => if t < getPixel img a b then 255 else 0),
    if_pos ((mem_raster _ _ _ _).mpr ⟨hx, hy⟩)]

lemma BAYER4_lt_255 (r c : ℕ) (hr : r < 4) (hc : c < 4) : BAYER4 r c < 255 := by
  interval_cases r <;> interval_cases c <;> decide

/-! ## The Floyd–Steinberg update agrees with the spec-worded formula -/

lemma fsUpdate_eq_spec (v : ℕ) (e : ℤ) (k : ℕ) :
    fsUpdate v e k = fsUpdateSpec v e k := by
  unfold fsUpdate fsUpdateSpec clampI
  have hq : (v : ℚ) + (e : ℚ) * ((k : ℚ) / 16) =
      ((16 * (v : ℤ) + e * (k : ℤ) : ℤ) : ℚ) / 16 := by
    push_cast
    ring
  rw [hq]
  have h255 : (255 : ℚ) = ((4080 : ℤ) : ℚ) / 16 := by norm_num
  have h0 : (0 : ℚ) = ((0 : ℤ) : ℚ) / 16 := by norm_num
  rw [h255, h0, max_div_div_right (by norm_num : (0 : ℚ) ≤ 16),
    min_div_div_right (by norm_num : (0 : ℚ) ≤ 16)]
  rw [← Int.cast_max, ← Int.cast_min]
  have hfl := Rat.floor_intCast_div_natCast
    (min (max (16 * (v : ℤ) + e * (k : ℤ)) 0) 4080) 16
  rw [show (((16 : ℕ) : ℤ)) = (16 : ℤ) by norm_num] at hfl
  rw [show (((16 : ℕ) : ℚ)) = (16 : ℚ) by norm_num] at hfl
  rw [hfl]
  omega

/-! ## The claims -/

/-- C1: for every input grid and each of the four algorithms
(`floyd_steinberg_dither`, `atkinson_dither`, `ordered_dither`,
`threshold_dither`), the returned grid has the same width and height as the
input, and every sample of the returned grid is exactly 0 or exactly 255. -/
theorem claim_C1 (img : Grid) :
    ((floyd_steinberg_dither img).width = img.width ∧
      (floyd_steinberg_dither img).height = img.height ∧
      ∀ x y, x < img.width → y < img.height →
        getPixel (floyd_steinberg_dither img) x y = 0 ∨
        getPixel (floyd_steinberg_dither img) x y = 255) ∧
    ((atkinson_dither img).width = img.width ∧
      (atkinson_dither img).height = img.height ∧
      ∀ x y, x < img.width → y < img.height →
        getPixel (atkinson_dither img) x y = 0 ∨
        getPixel (atkinson_dither img) x y = 255) ∧
    ((ordered_dither img).width = img.width ∧
      (ordered_dither img).height = img.height ∧
      ∀ x y, x < img.width → y < img.height →
        getPixel (ordered_dither img) x y = 0 ∨
        getPixel (ordered_dither img) x y = 255) ∧
    ∀ t, (threshold_dither img t).width = img.width ∧
      (threshold_dither img t).height = img.height ∧
      ∀ x y, x < img.width → y < img.height →
        getPixel (threshold_dither img t) x y = 0 ∨
        getPixel (threshold_dither img t) x y = 255 := by
  refine ⟨⟨floyd_width img, floyd_height img, ?_⟩,
    ⟨atkinson_width img, atkinson_height img, ?_⟩,
    ⟨ordered_width img, ordered_height img, ?_⟩, fun t =>
    ⟨threshold_width img t, threshold_height img t, ?_⟩⟩
  · intro x y hx hy
    exact floyd_binary img x y hx hy
  · intro x y hx hy
    exact atkinson_binary img x y hx hy
  · intro x y hx hy
    rw [ordered_get img x y hx hy]
    split
    · exact Or.inr rfl
    · exact Or.inl rfl
  · intro x y hx hy
    rw [threshold_get img t x y hx hy]
    split
    · exact Or.inr rfl
    · exact Or.inl rfl

theorem claim_C1_witness :
    (getPixel (floyd_steinberg_dither sampleGrid) 1 0 = 0 ∨
      getPixel (floyd_steinberg_dither sampleGrid) 1 0 = 255) ∧
    (getPixel (atkinson_dither sampleGrid) 0 1 = 0 ∨
      getPixel (atkinson_dither sampleGrid) 0 1 = 255) ∧
    (getPixel (ordered_dither sampleGrid) 0 0 = 0 ∨
      getPixel (ordered_dither sampleGrid) 0 0 = 255) ∧
    (getPixel (threshold_dither sampleGrid 128) 1 1 = 0 ∨
      getPixel (threshold_dither sampleGrid 128) 1 1 = 255) :=
  ⟨(claim_C1 sampleGrid).1.2.2 1 0 (by decide) (by decide),
    (claim_C1 sampleGrid).2.1.2.2 0 1 (by decide) (by decide),
    (claim_C1 sampleGrid).2.2.1.2.2 0 0 (by decide) (by decide),
    ((claim_C1 sampleGrid).2.2.2 128).2.2 1 1 (by decide) (by decide)⟩

/-- C9: in both error-diffusion passes, a step at pixel `(x, y)` never
modifies a cell at a strictly earlier raster position (`j * w + i` is the
raster index of `(i, j)`), and writes the binarised value at `(x, y)` itself;
consequently, along the pass (`processPrefix`, to which both algorithms
unfold), a processed cell is 0 or 255 and keeps its value for the rest of the
pass. -/
theorem claim_C9 (w h : ℕ) :
    (∀ img : Grid, floyd_steinberg_dither img =
      processPrefix (floydStep img.width img.height) img.width img
        (img.width * img.height)) ∧
    (∀ img : Grid, atkinson_dither img =
      processPrefix (atkinsonStep img.width img.height) img.width img
        (img.width * img.height)) ∧
    (∀ g x y i j, j * w + i < y * w + x →
      getPixel (floydStep w h g (x, y)) i j = getPixel g i j) ∧
    (∀ g x y, getPixel (floydStep w h g (x, y)) x y =
      if getPixel g x y < 128 then 0 else 255) ∧
    (∀ g x y i j, j * w + i < y * w + x →
      getPixel (atkinsonStep w h g (x, y)) i j = getPixel g i j) ∧
    (∀ g x y, getPixel (atkinsonStep w h g (x, y)) x y =
      if getPixel g x y < 128 then 0 else 255) ∧
    (∀ img k l m, k ≤ l → m < k →
      getPixel (processPrefix (floydStep w h) w img l) (m % w) (m / w) =
        getPixel (processPrefix (floydStep w h) w img k) (m % w) (m / w) ∧
      (getPixel (processPrefix (floydStep w h) w img k) (m % w) (m / w) = 0 ∨
        getPixel (processPrefix (floydStep w h) w img k) (m % w) (m / w) = 255)) ∧
    (∀ img k l m, k ≤ l → m < k →
      getPixel (processPrefix (atkinsonStep w h) w img l) (m % w) (m / w) =
        getPixel (processPrefix (atkinsonStep w h) w img k) (m % w) (m / w) ∧
      (getPixel (processPrefix (atkinsonStep w h) w img k) (m % w) (m / w) = 0 ∨
        getPixel (processPrefix (atkinsonStep w h) w img k) (m % w) (m / w) = 255)) := by
  refine ⟨floyd_eq_processPrefix, atkinson_eq_processPrefix,
    fun g x y i j hij => floydStep_earlier w h g x y i j hij,
    fun g x y => floydStep_self w h g x y,
    fun g x y i j hij => atkinsonStep_earlier w h g x y i j hij,
    fun g x y => atkinsonStep_self w h g x y, ?_, ?_⟩
  · intro img k l m hkl hm
    exact ⟨processPrefix_stable (floydStep w h) w
      (fun g x y i j hij => floydStep_earlier w h g x y i j hij) img k l hkl m hm,
      processPrefix_binary (floydStep w h) w
        (fun g x y i j hij => floydStep_earlier w h g x y i j hij)
        (fun g x y => floydStep_self w h g x y) img k m hm⟩
  · intro img k l m hkl hm
    exact ⟨processPrefix_stable (atkinsonStep w h) w
      (fun g x y i j hij => atkinsonStep_earlier w h g x y i j hij) img k l hkl m hm,
      processPrefix_binary (atkinsonStep w h) w
        (fun g x y i j hij => atkinsonStep_earlier w h g x y i j hij)
        (fun g x y => atkinsonStep_self w h g x y) img k m hm⟩

theorem claim_C9_witness :
    getPixel (floydStep 2 2 sampleGrid (1, 0)) 0 0 = getPixel sampleGrid 0 0 ∧
    (getPixel (processPrefix (atkinsonStep 2 2) 2 sampleGrid 4) (1 % 2) (1 / 2) =
        getPixel (processPrefix (atkinsonStep 2 2) 2 sampleGrid 2) (1 % 2) (1 / 2) ∧
      (getPixel (processPrefix (atkinsonStep 2 2) 2 sampleGrid 2) (1 % 2) (1 / 2) = 0 ∨
        getPixel (processPrefix (atkinsonStep 2 2) 2 sampleGrid 2) (1 % 2) (1 / 2) = 255)) :=
  ⟨(claim_C9 2 2).2.2.1 sampleGrid 1 0 0 0 (by decide),
    (claim_C9 2 2).2.2.2.2.2.2.2 sampleGrid 2 4 1 (by decide) (by decide)⟩

/-- C4: `ordered_dither` sets `output[x,y] = 255` exactly when
`input[x,y] > BAYER4[y % 4][x % 4]` and 0 otherwise, so the output at `(x,y)`
depends only on the input sample there and on `(x % 4, y % 4)` — no
dependency on neighbouring pixels. -/
theorem claim_C4 (img : Grid) (x y : ℕ)
    (hx : x < img.width) (hy : y < img.height) :
    getPixel (ordered_dither img) x y =
      (if BAYER4 (y % 4) (x % 4) < getPixel img x y then 255 else 0) ∧
    ∀ (img2 : Grid) (x2 y2 : ℕ), x2 < img2.width → y2 < img2.height →
      getPixel img x y = getPixel img2 x2 y2 → x % 4 = x2 % 4 → y % 4 = y2 % 4 →
      getPixel (ordered_dither img) x y = getPixel (ordered_dither img2) x2 y2 := by
  refine ⟨ordered_get img x y hx hy, ?_⟩
  intro img2 x2 y2 hx2 hy2 hs hxm hym
  rw [ordered_get img x y hx hy, ordered_get img2 x2 y2 hx2 hy2, hs, hxm, hym]

theorem claim_C4_witness :
    getPixel (ordered_dither sampleGrid) 1 0 =
      (if BAYER4 (0 % 4) (1 % 4) < getPixel sampleGrid 1 0 then 255 else 0) ∧
    getPixel (ordered_dither sampleGrid) 1 0 = getPixel (ordered_dither sampleGrid) 1 0 :=
  ⟨(claim_C4 sampleGrid 1 0 (by decide) (by decide)).1,
    (claim_C4 sampleGrid 1 0 (by decide) (by decide)).2 sampleGrid 1 0 (by decide)
      (by decide) (by decide) (by decide) (by decide)⟩

/-- C5: `threshold_dither` returns 255 at `(x,y)` exactly when the input
sample is strictly greater than the threshold (a sample equal to the
threshold maps to 0), and the dispatch default applies threshold 128. -/
theorem claim_C5 (img : Grid) (t x y : ℕ)
    (hx : x < img.width) (hy : y < img.height) :
    getPixel (threshold_dither img t) x y =
      (if t < getPixel img x y then 255 else 0) ∧
    (getPixel (threshold_dither img t) x y = 255 ↔ t < getPixel img x y) ∧
    ∀ s : String, s ≠ "floyd-steinberg" → s ≠ "ordered" → s ≠ "atkinson" →
      select_algorithm s img = threshold_dither img 128 := by
  have hf := threshold_get img t x y hx hy
  refine ⟨hf, ?_, ?_⟩
  · rw [hf]
    by_cases hc : t < getPixel img x y
    · simp [hc]
    · simp [hc]
  · intro s h1 h2 h3
    unfold select_algorithm
    rw [if_neg h1, if_neg h2, if_neg h3]

theorem claim_C5_witness :
    (getPixel (threshold_dither sampleGrid 200) 0 1 = 255 ↔
      200 < getPixel sampleGrid 0 1) ∧
    select_algorithm "nonexistent" sampleGrid = threshold_dither sampleGrid 128 :=
  ⟨(claim_C5 sampleGrid 200 0 1 (by decide) (by decide)).2.1,
    (claim_C5 sampleGrid 200 0 1 (by decide) (by decide)).2.2 "nonexistent"
      (by decide) (by decide) (by decide)⟩

/-- C6: `select_algorithm` recognises exactly the three non-default
identifiers, and every other string resolves, without error, to
`threshold_dither` with threshold 128 on the same input. -/
theorem claim_C6 (img : Grid) :
    select_algorithm "floyd-steinberg" img = floyd_steinberg_dither img ∧
    select_algorithm "ordered" img = ordered_dither img ∧
    select_algorithm "atkinson" img = atkinson_dither img ∧
    ∀ s : String, s ≠ "floyd-steinberg" → s ≠ "ordered" → s ≠ "atkinson" →
      select_algorithm s img = threshold_dither img 128 := by
  refine ⟨?_, ?_, ?_, ?_⟩
  · unfold select_algorithm
    rw [if_pos rfl]
  · unfold select_algorithm
    rw [if_neg (by decide), if_pos rfl]
  · unfold select_algorithm
    rw [if_neg (by decide), if_neg (by decide), if_pos rfl]
  · intro s h1 h2 h3
    unfold select_algorithm
    rw [if_neg h1, if_neg h2, if_neg h3]

theorem claim_C6_witness :
    select_algorithm "nonexistent" sampleGrid = threshold_dither sampleGrid 128 :=
  (claim_C6 sampleGrid).2.2.2 "nonexistent" (by decide) (by decide) (by decide)

/-- C7: on an input whose samples are all 0 or 255 already,
`ordered_dither` and `threshold_dither` with threshold 128 return the image
unchanged (same dimensions, same sample at every in-bounds coordinate). -/
theorem claim_C7 (img : Grid)
    (hbin : ∀ x, x < img.width → ∀ y, y < img.height →
      getPixel img x y = 0 ∨ getPixel img x y = 255) :
    ((ordered_dither img).width = img.width ∧
      (ordered_dither img).height = img.height ∧
      ∀ x y, x < img.width → y < img.height →
        getPixel (ordered_dither img) x y = getPixel img x y) ∧
    ((threshold_dither img 128).width = img.width ∧
      (threshold_dither img 128).height = img.height ∧
      ∀ x y, x < img.width → y < img.height →
        getPixel (threshold_dither img 128) x y = getPixel img x y) := by
  refine ⟨⟨ordered_width img, ordered_height img, ?_⟩,
    ⟨threshold_width img 128, threshold_height img 128, ?_⟩⟩
  · intro x y hx hy
    rw [ordered_get img x y hx hy]
    rcases hbin x hx y hy with hv | hv
    · rw [hv, if_neg (by omega)]
    · rw [hv, if_pos (BAYER4_lt_255 (y % 4) (x % 4)
        (Nat.mod_lt y (by omega)) (Nat.mod_lt x (by omega)))]
  · intro x y hx hy
    rw [threshold_get img 128 x y hx hy]
    rcases hbin x hx y hy with hv | hv
    · rw [hv, if_neg (by omega)]
    · rw [hv, if_pos (by omega)]

theorem claim_C7_witness :
    getPixel (ordered_dither binGrid) 0 1 = getPixel binGrid 0 1 ∧
    getPixel (threshold_dither binGrid 128) 0 1 = getPixel binGrid 0 1 :=
  ⟨(claim_C7 binGrid (by decide)).1.2.2 0 1 (by decide) (by decide),
    (claim_C7 binGrid (by decide)).2.2.2 0 1 (by decide) (by decide)⟩

/-- C2: each `floyd_steinberg_dither` step (its loop body `floydStep`) sets
the current pixel with value `S` to `N = 0` if `S < 128` else 255, and each
in-bounds neighbour among right `(+1,0)`, lower-left `(-1,+1)`, lower
`(0,+1)`, lower-right `(+1,+1)` receives the fraction 7/16, 3/16, 5/16, 1/16
of `E = S - N`: its value becomes `clamp(v + E*k/16, 0, 255)` truncated
toward zero (`fsUpdateSpec`, worded as in the spec; the truncation of the
clamped, nonnegative value is the floor). -/
theorem claim_C2 (w h : ℕ) (g : Grid) (x y : ℕ) (hx : x < w) (hy : y < h) :
    (∀ img : Grid, floyd_steinberg_dither img =
      (raster img.width img.height).foldl (floydStep img.width img.height) img) ∧
    getPixel (floydStep w h g (x, y)) x y =
      (if getPixel g x y < 128 then 0 else 255) ∧
    (x + 1 < w →
      getPixel (floydStep w h g (x, y)) (x + 1) y =
        fsUpdateSpec (getPixel g (x + 1) y)
          ((getPixel g x y : ℤ) -
            (if (getPixel g x y : ℤ) < 128 then 0 else 255)) 7) ∧
    (0 < x → y + 1 < h →
      getPixel (floydStep w h g (x, y)) (x - 1) (y + 1) =
        fsUpdateSpec (getPixel g (x - 1) (y + 1))
          ((getPixel g x y : ℤ) -
            (if (getPixel g x y : ℤ) < 128 then 0 else 255)) 3) ∧
    (y + 1 < h →
      getPixel (floydStep w h g (x, y)) x (y + 1) =
        fsUpdateSpec (getPixel g x (y + 1))
          ((getPixel g x y : ℤ) -
            (if (getPixel g x y : ℤ) < 128 then 0 else 255)) 5) ∧
    (x + 1 < w → y + 1 < h →
      getPixel (floydStep w h g (x, y)) (x + 1) (y + 1) =
        fsUpdateSpec (getPixel g (x + 1) (y + 1))
          ((getPixel g x y : ℤ) -
            (if (getPixel g x y : ℤ) < 128 then 0 else 255)) 1) := by
  refine ⟨fun img => rfl, floydStep_self w h g x y, ?_, ?_, ?_, ?_⟩
  · intro hx1
    have hU2 : ∀ o' ∈ [((-1 : ℤ), (1 : ℤ), (3 : ℕ)), ((0 : ℤ), (1 : ℤ), (5 : ℕ)),
        ((1 : ℤ), (1 : ℤ), (1 : ℕ))],
        0 ≤ (x : ℤ) + o'.1 → (x : ℤ) + o'.1 < (w : ℤ) →
        0 ≤ (y : ℤ) + o'.2.1 → (y : ℤ) + o'.2.1 < (h : ℤ) →
        ¬(x + 1 = ((x : ℤ) + o'.1).toNat ∧ y = ((y : ℤ) + o'.2.1).toNat) := by
      intro o' ho' h1 h2 h3 h4
      simp only [List.mem_cons, List.not_mem_nil, or_false] at ho'
      rcases ho' with rfl | rfl | rfl <;>
        (rintro ⟨hA, hB⟩; dsimp only at hA hB; omega)
    simp only [floydStep]
    rw [show fsOffsets = [] ++ ((1 : ℤ), (0 : ℤ), (7 : ℕ)) ::
        [((-1 : ℤ), (1 : ℤ), (3 : ℕ)), ((0 : ℤ), (1 : ℤ), (5 : ℕ)),
          ((1 : ℤ), (1 : ℤ), (1 : ℕ))] from rfl,
      diffuseFS_value w h x y _ (x + 1) y _ _ _
        (fun o' ho' => absurd ho' (List.not_mem_nil o')) hU2
        ⟨by dsimp only; omega, by dsimp only; omega,
          by dsimp only; omega, by dsimp only; omega⟩
        (by dsimp only; omega) (by dsimp only; omega),
      getPixel_putPixel, if_neg (by rintro ⟨hA, hB⟩; omega), fsUpdate_eq_spec]
  · intro hx0 hy1
    have hU1 : ∀ o' ∈ [((1 : ℤ), (0 : ℤ), (7 : ℕ))],
        0 ≤ (x : ℤ) + o'.1 → (x : ℤ) + o'.1 < (w : ℤ) →
        0 ≤ (y : ℤ) + o'.2.1 → (y : ℤ) + o'.2.1 < (h : ℤ) →
        ¬(x - 1 = ((x : ℤ) + o'.1).toNat ∧ y + 1 = ((y : ℤ) + o'.2.1).toNat) := by
      intro o' ho' h1 h2 h3 h4
      simp only [List.mem_cons, List.not_mem_nil, or_false] at ho'
      rcases ho' with rfl
      rintro ⟨hA, hB⟩
      dsimp only at hA hB
      omega
    have hU2 : ∀ o' ∈ [((0 : ℤ), (1 : ℤ), (5 : ℕ)), ((1 : ℤ), (1 : ℤ), (1 : ℕ))],
        0 ≤ (x : ℤ) + o'.1 → (x : ℤ) + o'.1 < (w : ℤ) →
        0 ≤ (y : ℤ) + o'.2.1 → (y : ℤ) + o'.2.1 < (h : ℤ) →
        ¬(x - 1 = ((x : ℤ) + o'.1).toNat ∧ y + 1 = ((y : ℤ) + o'.2.1).toNat) := by
      intro o' ho' h1 h2 h3 h4
      simp only [List.mem_cons, List.not_mem_nil, or_false] at ho'
      rcases ho' with rfl | rfl <;>
        (rintro ⟨hA, hB⟩; dsimp only at hA hB; omega)
    simp only [floydStep]
    rw [show fsOffsets = [((1 : ℤ), (0 : ℤ), (7 : ℕ))] ++
        ((-1 : ℤ), (1 : ℤ), (3 : ℕ)) ::
        [((0 : ℤ), (1 : ℤ), (5 : ℕ)), ((1 : ℤ), (1 : ℤ), (1 : ℕ))] from rfl,
      diffuseFS_value w h x y _ (x - 1) (y + 1) _ _ _ hU1 hU2
        ⟨by dsimp only; omega, by dsimp only; omega,
          by dsimp only; omega, by dsimp only; omega⟩
        (by dsimp only; omega) (by dsimp only; omega),
      getPixel_putPixel, if_neg (by rintro ⟨hA, hB⟩; omega), fsUpdate_eq_spec]
  · intro hy1
    have hU1 : ∀ o' ∈ [((1 : ℤ), (0 : ℤ), (7 : ℕ)), ((-1 : ℤ), (1 : ℤ), (3 : ℕ))],
        0 ≤ (x : ℤ) + o'.1 → (x : ℤ) + o'.1 < (w : ℤ) →
        0 ≤ (y : ℤ) + o'.2.1 → (y : ℤ) + o'.2.1 < (h : ℤ) →
        ¬(x = ((x : ℤ) + o'.1).toNat ∧ y + 1 = ((y : ℤ) + o'.2.1).toNat) := by
      intro o' ho' h1 h2 h3 h4
      simp only [List.mem_cons, List.not_mem_nil, or_false] at ho'
      rcases ho' with rfl | rfl <;>
        (rintro ⟨hA, hB⟩; dsimp only at hA hB; omega)
    have hU2 : ∀ o' ∈ [((1 : ℤ), (1 : ℤ), (1 : ℕ))],
        0 ≤ (x : ℤ) + o'.1 → (x : ℤ) + o'.1 < (w : ℤ) →
        0 ≤ (y : ℤ) + o'.2.1 → (y : ℤ) + o'.2.1 < (h : ℤ) →
        ¬(x = ((x : ℤ) + o'.1).toNat ∧ y + 1 = ((y : ℤ) + o'.2.1).toNat) := by
      intro o' ho' h1 h2 h3 h4
      simp only [List.mem_cons, List.not_mem_nil, or_false] at ho'
      rcases ho' with rfl
      rintro ⟨hA, hB⟩
      dsimp only at hA hB
      omega
    simp only [floydStep]
    rw [show fsOffsets = [((1 : ℤ), (0 : ℤ), (7 : ℕ)), ((-1 : ℤ), (1 : ℤ), (3 : ℕ))] ++
        ((0 : ℤ), (1 : ℤ), (5 : ℕ)) :: [((1 : ℤ), (1 : ℤ), (1 : ℕ))] from rfl,
      diffuseFS_value w h x y _ x (y + 1) _ _ _ hU1 hU2
        ⟨by dsimp only; omega, by dsimp only; omega,
          by dsimp only; omega, by dsimp only; omega⟩
        (by dsimp only; omega) (by dsimp only; omega),
      getPixel_putPixel, if_neg (by rintro ⟨hA, hB⟩; omega), fsUpdate_eq_spec]
  · intro hx1 hy1
    have hU1 : ∀ o' ∈ [((1 : ℤ), (0 : ℤ), (7 : ℕ)), ((-1 : ℤ), (1 : ℤ), (3 : ℕ)),
        ((0 : ℤ), (1 : ℤ), (5 : ℕ))],
        0 ≤ (x : ℤ) + o'.1 → (x : ℤ) + o'.1 < (w : ℤ) →
        0 ≤ (y : ℤ) + o'.2.1 → (y : ℤ) + o'.2.1 < (h : ℤ) →
        ¬(x + 1 = ((x : ℤ) + o'.1).toNat ∧ y + 1 = ((y : ℤ) + o'.2.1).toNat) := by
      intro o' ho' h1 h2 h3 h4
      simp only [List.mem_cons, List.not_mem_nil, or_false] at ho'
      rcases ho' with rfl | rfl | rfl <;>
        (rintro ⟨hA, hB⟩; dsimp only at hA hB; omega)
    simp only [floydStep]
    rw [show fsOffsets = [((1 : ℤ), (0 : ℤ), (7 : ℕ)), ((-1 : ℤ), (1 : ℤ), (3 : ℕ)),
        ((0 : ℤ), (1 : ℤ), (5 : ℕ))] ++ ((1 : ℤ), (1 : ℤ), (1 : ℕ)) :: [] from rfl,
      diffuseFS_value w h x y _ (x + 1) (y + 1) _ _ _ hU1
        (fun o' ho' => absurd ho' (List.not_mem_nil o'))
        ⟨by dsimp only; omega, by dsimp only; omega,
          by dsimp only; omega, by dsimp only; omega⟩
        (by dsimp only; omega) (by dsimp only; omega),
      getPixel_putPixel, if_neg (by rintro ⟨hA, hB⟩; omega), fsUpdate_eq_spec]

theorem claim_C2_witness :
    getPixel (floydStep 2 2 sampleGrid (0, 0)) 1 0 =
      fsUpdateSpec (getPixel sampleGrid 1 0)
        ((getPixel sampleGrid 0 0 : ℤ) -
          (if (getPixel sampleGrid 0 0 : ℤ) < 128 then 0 else 255)) 7 :=
  (claim_C2 2 2 sampleGrid 0 0 (by decide) (by decide)).2.2.1 (by decide)

/-- C3: each `atkinson_dither` step (its loop body `atkinsonStep`) binarises
the current pixel at 128 and adds the reduced error
`E = (S - N).tdiv 8` (truncating integer division by 8, no further fraction)
to each of the six in-bounds neighbours `(+1,0)`, `(+2,0)`, `(-1,+1)`,
`(0,+1)`, `(+1,+1)`, `(0,+2)`, clamping each result to `[0, 255]`. -/
theorem claim_C3 (w h : ℕ) (g : Grid) (x y : ℕ) (hx : x < w) (hy : y < h) :
    (∀ img : Grid, atkinson_dither img =
      (raster img.width img.height).foldl (atkinsonStep img.width img.height) img) ∧
    getPixel (atkinsonStep w h g (x, y)) x y =
      (if getPixel g x y < 128 then 0 else 255) ∧
    (x + 1 < w →
      getPixel (atkinsonStep w h g (x, y)) (x + 1) y =
        (clampI ((getPixel g (x + 1) y : ℤ) +
          ((getPixel g x y : ℤ) -
            (if (getPixel g x y : ℤ) < 128 then 0 else 255)).tdiv 8) 0 255).toNat) ∧
    (x + 2 < w →
      getPixel (atkinsonStep w h g (x, y)) (x + 2) y =
        (clampI ((getPixel g (x + 2) y : ℤ) +
          ((getPixel g x y : ℤ) -
            (if (getPixel g x y : ℤ) < 128 then 0 else 255)).tdiv 8) 0 255).toNat) ∧
    (0 < x → y + 1 < h →
      getPixel (atkinsonStep w h g (x, y)) (x - 1) (y + 1) =
        (clampI ((getPixel g (x - 1) (y + 1) : ℤ) +
          ((getPixel g x y : ℤ) -
            (if (getPixel g x y : ℤ) < 128 then 0 else 255)).tdiv 8) 0 255).toNat) ∧
    (y + 1 < h →
      getPixel (atkinsonStep w h g (x, y)) x (y + 1) =
        (clampI ((getPixel g x (y + 1) : ℤ) +
          ((getPixel g x y : ℤ) -
            (if (getPixel g x y : ℤ) < 128 then 0 else 255)).tdiv 8) 0 255).toNat) ∧
    (x + 1 < w → y + 1 < h →
      getPixel (atkinsonStep w h g (x, y)) (x + 1) (y + 1) =
        (clampI ((getPixel g (x + 1) (y + 1) : ℤ) +
          ((getPixel g x y : ℤ) -
            (if (getPixel g x y : ℤ) < 128 then 0 else 255)).tdiv 8) 0 255).toNat) ∧
    (y + 2 < h →
      getPixel (atkinsonStep w h g (x, y)) x (y + 2) =
        (clampI ((getPixel g x (y + 2) : ℤ) +
          ((getPixel g x y : ℤ) -
            (if (getPixel g x y : ℤ) < 128 then 0 else 255)).tdiv 8) 0 255).toNat) := by
  refine ⟨fun img => rfl, atkinsonStep_self w h g x y, ?_, ?_, ?_, ?_, ?_, ?_⟩
  · intro hx1
    have hU2 : ∀ o' ∈ [((2 : ℤ), (0 : ℤ)), ((-1 : ℤ), (1 : ℤ)), ((0 : ℤ), (1 : ℤ)),
        ((1 : ℤ), (1 : ℤ)), ((0 : ℤ), (2 : ℤ))],
        0 ≤ (x : ℤ) + o'.1 → (x : ℤ) + o'.1 < (w : ℤ) →
        0 ≤ (y : ℤ) + o'.2 → (y : ℤ) + o'.2 < (h : ℤ) →
        ¬(x + 1 = ((x : ℤ) + o'.1).toNat ∧ y = ((y : ℤ) + o'.2).toNat) := by
      intro o' ho' h1 h2 h3 h4
      simp only [List.mem_cons, List.not_mem_nil, or_false] at ho'
      rcases ho' with rfl | rfl | rfl | rfl | rfl <;>
        (rintro ⟨hA, hB⟩; dsimp only at hA hB; omega)
    simp only [atkinsonStep]
    rw [show atkOffsets = [] ++ ((1 : ℤ), (0 : ℤ)) :: [((2 : ℤ), (0 : ℤ)),
        ((-1 : ℤ), (1 : ℤ)), ((0 : ℤ), (1 : ℤ)), ((1 : ℤ), (1 : ℤ)),
        ((0 : ℤ), (2 : ℤ))] from rfl,
      diffuseAtk_value w h x y _ (x + 1) y _ _ _
        (fun o' ho' => absurd ho' (List.not_mem_nil o')) hU2
        ⟨by dsimp only; omega, by dsimp only; omega,
          by dsimp only; omega, by dsimp only; omega⟩
        (by dsimp only; omega) (by dsimp only; omega),
      getPixel_putPixel, if_neg (by rintro ⟨hA, hB⟩; omega)]
    rfl
  · intro hx2
    have hU1 : ∀ o' ∈ [((1 : ℤ), (0 : ℤ))],
        0 ≤ (x : ℤ) + o'.1 → (x : ℤ) + o'.1 < (w : ℤ) →
        0 ≤ (y : ℤ) + o'.2 → (y : ℤ) + o'.2 < (h : ℤ) →
        ¬(x + 2 = ((x : ℤ) + o'.1).toNat ∧ y = ((y : ℤ) + o'.2).toNat) := by
      intro o' ho' h1 h2 h3 h4
      simp only [List.mem_cons, List.not_mem_nil, or_false] at ho'
      rcases ho' with rfl
      rintro ⟨hA, hB⟩
      dsimp only at hA hB
      omega
    have hU2 : ∀ o' ∈ [((-1 : ℤ), (1 : ℤ)), ((0 : ℤ), (1 : ℤ)),
        ((1 : ℤ), (1 : ℤ)), ((0 : ℤ), (2 : ℤ))],
        0 ≤ (x : ℤ) + o'.1 → (x : ℤ) + o'.1 < (w : ℤ) →
        0 ≤ (y : ℤ) + o'.2 → (y : ℤ) + o'.2 < (h : ℤ) →
        ¬(x + 2 = ((x : ℤ) + o'.1).toNat ∧ y = ((y : ℤ) + o'.2).toNat) := by
      intro o' ho' h1 h2 h3 h4
      simp only [List.mem_cons, List.not_mem_nil, or_false] at ho'
      rcases ho' with rfl | rfl | rfl | rfl <;>
        (rintro ⟨hA, hB⟩; dsimp only at hA hB; omega)
    simp only [atkinsonStep]
    rw [show atkOffsets = [((1 : ℤ), (0 : ℤ))] ++ ((2 : ℤ), (0 : ℤ)) ::
        [((-1 : ℤ), (1 : ℤ)), ((0 : ℤ), (1 : ℤ)), ((1 : ℤ), (1 : ℤ)),
        ((0 : ℤ), (2 : ℤ))] from rfl,
      diffuseAtk_value w h x y _ (x + 2) y _ _ _ hU1 hU2
        ⟨by dsimp only; omega, by dsimp only; omega,
          by dsimp only; omega, by dsimp only; omega⟩
        (by dsimp only; omega) (by dsimp only; omega),
      getPixel_putPixel, if_neg (by rintro ⟨hA, hB⟩; omega)]
    rfl
  · intro hx0 hy1
    have hU1 : ∀ o' ∈ [((1 : ℤ), (0 : ℤ)), ((2 : ℤ), (0 : ℤ))],
        0 ≤ (x : ℤ) + o'.1 → (x : ℤ) + o'.1 < (w : ℤ) →
        0 ≤ (y : ℤ) + o'.2 → (y : ℤ) + o'.2 < (h : ℤ) →
        ¬(x - 1 = ((x : ℤ) + o'.1).toNat ∧ y + 1 = ((y : ℤ) + o'.2).toNat) := by
      intro o' ho' h1 h2 h3 h4
      simp only [List.mem_cons, List.not_mem_nil, or_false] at ho'
      rcases ho' with rfl | rfl <;>
        (rintro ⟨hA, hB⟩; dsimp only at hA hB; omega)
    have hU2 : ∀ o' ∈ [((0 : ℤ), (1 : ℤ)), ((1 : ℤ), (1 : ℤ)), ((0 : ℤ), (2 : ℤ))],
        0 ≤ (x : ℤ) + o'.1 → (x : ℤ) + o'.1 < (w : ℤ) →
        0 ≤ (y : ℤ) + o'.2 → (y : ℤ) + o'.2 < (h : ℤ) →
        ¬(x - 1 = ((x : ℤ) + o'.1).toNat ∧ y + 1 = ((y : ℤ) + o'.2).toNat) := by
      intro o' ho' h1 h2 h3 h4
      simp only [List.mem_cons, List.not_mem_nil, or_false] at ho'
      rcases ho' with rfl | rfl | rfl <;>
        (rintro ⟨hA, hB⟩; dsimp only at hA hB; omega)
    simp only [atkinsonStep]
    rw [show atkOffsets = [((1 : ℤ), (0 : ℤ)), ((2 : ℤ), (0 : ℤ))] ++
        ((-1 : ℤ), (1 : ℤ)) :: [((0 : ℤ), (1 : ℤ)), ((1 : ℤ), (1 : ℤ)),
        ((0 : ℤ), (2 : ℤ))] from rfl,
      diffuseAtk_value w h x y _ (x - 1) (y + 1) _ _ _ hU1 hU2
        ⟨by dsimp only; omega, by dsimp only; omega,
          by dsimp only; omega, by dsimp only; omega⟩
        (by dsimp only; omega) (by dsimp only; omega),
      getPixel_putPixel, if_neg (by rintro ⟨hA, hB⟩; omega)]
    rfl
  · intro hy1
    have hU1 : ∀ o' ∈ [((1 : ℤ), (0 : ℤ)), ((2 : ℤ), (0 : ℤ)), ((-1 : ℤ), (1 : ℤ))],
        0 ≤ (x : ℤ) + o'.1 → (x : ℤ) + o'.1 < (w : ℤ) →
        0 ≤ (y : ℤ) + o'.2 → (y : ℤ) + o'.2 < (h : ℤ) →
        ¬(x = ((x : ℤ) + o'.1).toNat ∧ y + 1 = ((y : ℤ) + o'.2).toNat) := by
      intro o' ho' h1 h2 h3 h4
      simp only [List.mem_cons, List.not_mem_nil, or_false] at ho'
      rcases ho' with rfl | rfl | rfl <;>
        (rintro ⟨hA, hB⟩; dsimp only at hA hB; omega)
    have hU2 : ∀ o' ∈ [((1 : ℤ), (1 : ℤ)), ((0 : ℤ), (2 : ℤ))],
        0 ≤ (x : ℤ) + o'.1 → (x : ℤ) + o'.1 < (w : ℤ) →
        0 ≤ (y : ℤ) + o'.2 → (y : ℤ) + o'.2 < (h : ℤ) →
        ¬(x = ((x : ℤ) + o'.1).toNat ∧ y + 1 = ((y : ℤ) + o'.2).toNat) := by
      intro o' ho' h1 h2 h3 h4
      simp only [List.mem_cons, List.not_mem_nil, or_false] at ho'
      rcases ho' with rfl | rfl <;>
        (rintro ⟨hA, hB⟩; dsimp only at hA hB; omega)
    simp only [atkinsonStep]
    rw [show atkOffsets = [((1 : ℤ), (0 : ℤ)), ((2 : ℤ), (0 : ℤ)),
        ((-1 : ℤ), (1 : ℤ))] ++ ((0 : ℤ), (1 : ℤ)) ::
        [((1 : ℤ), (1 : ℤ)), ((0 : ℤ), (2 : ℤ))] from rfl,
      diffuseAtk_value w h x y _ x (y + 1) _ _ _ hU1 hU2
        ⟨by dsimp only; omega, by dsimp only; omega,
          by dsimp only; omega, by dsimp only; omega⟩
        (by dsimp only; omega) (by dsimp only; omega),
      getPixel_putPixel, if_neg (by rintro ⟨hA, hB⟩; omega)]
    rfl
  · intro hx1 hy1
    have hU1 : ∀ o' ∈ [((1 : ℤ), (0 : ℤ)), ((2 : ℤ), (0 : ℤ)), ((-1 : ℤ), (1 : ℤ)),
        ((0 : ℤ), (1 : ℤ))],
        0 ≤ (x : ℤ) + o'.1 → (x : ℤ) + o'.1 < (w : ℤ) →
        0 ≤ (y : ℤ) + o'.2 → (y : ℤ) + o'.2 < (h : ℤ) →
        ¬(x + 1 = ((x : ℤ) + o'.1).toNat ∧ y + 1 = ((y : ℤ) + o'.2).toNat) := by
      intro o' ho' h1 h2 h3 h4
      simp only [List.mem_cons, List.not_mem_nil, or_false] at ho'
      rcases ho' with rfl | rfl | rfl | rfl <;>
        (rintro ⟨hA, hB⟩; dsimp only at hA hB; omega)
    have hU2 : ∀ o' ∈ [((0 : ℤ), (2 : ℤ))],
        0 ≤ (x : ℤ) + o'.1 → (x : ℤ) + o'.1 < (w : ℤ) →
        0 ≤ (y : ℤ) + o'.2 → (y : ℤ) + o'.2 < (h : ℤ) →
        ¬(x + 1 = ((x : ℤ) + o'.1).toNat ∧ y + 1 = ((y : ℤ) + o'.2).toNat) := by
      intro o' ho' h1 h2 h3 h4
      simp only [List.mem_cons, List.not_mem_nil, or_false] at ho'
      rcases ho' with rfl
      rintro ⟨hA, hB⟩
      dsimp only at hA hB
      omega
    simp only [atkinsonStep]
    rw [show atkOffsets = [((1 : ℤ), (0 : ℤ)), ((2 : ℤ), (0 : ℤ)),
        ((-1 : ℤ), (1 : ℤ)), ((0 : ℤ), (1 : ℤ))] ++ ((1 : ℤ), (1 : ℤ)) ::
        [((0 : ℤ), (2 : ℤ))] from rfl,
      diffuseAtk_value w h x y _ (x + 1) (y + 1) _ _ _ hU1 hU2
        ⟨by dsimp only; omega, by dsimp only; omega,
          by dsimp only; omega, by dsimp only; omega⟩
        (by dsimp only; omega) (by dsimp only; omega),
      getPixel_putPixel, if_neg (by rintro ⟨hA, hB⟩; omega)]
    rfl
  · intro hy2
    have hU1 : ∀ o' ∈ [((1 : ℤ), (0 : ℤ)), ((2 : ℤ), (0 : ℤ)), ((-1 : ℤ), (1 : ℤ)),
        ((0 : ℤ), (1 : ℤ)), ((1 : ℤ), (1 : ℤ))],
        0 ≤ (x : ℤ) + o'.1 → (x : ℤ) + o'.1 < (w : ℤ) →
        0 ≤ (y : ℤ) + o'.2 → (y : ℤ) + o'.2 < (h : ℤ) →
        ¬(x = ((x : ℤ) + o'.1).toNat ∧ y + 2 = ((y : ℤ) + o'.2).toNat) := by
      intro o' ho' h1 h2 h3 h4
      simp only [List.mem_cons, List.not_mem_nil, or_false] at ho'
      rcases ho' with rfl | rfl | rfl | rfl | rfl <;>
        (rintro ⟨hA, hB⟩; dsimp only at hA hB; omega)
    simp only [atkinsonStep]
    rw [show atkOffsets = [((1 : ℤ), (0 : ℤ)), ((2 : ℤ), (0 : ℤ)),
        ((-1 : ℤ), (1 : ℤ)), ((0 : ℤ), (1 : ℤ)), ((1 : ℤ), (1 : ℤ))] ++
        ((0 : ℤ), (2 : ℤ)) :: [] from rfl,
      diffuseAtk_value w h x y _ x (y + 2) _ _ _ hU1
        (fun o' ho' => absurd ho' (List.not_mem_nil o'))
        ⟨by dsimp only; omega, by dsimp only; omega,
          by dsimp only; omega, by dsimp only; omega⟩
        (by dsimp only; omega) (by dsimp only; omega),
      getPixel_putPixel, if_neg (by rintro ⟨hA, hB⟩; omega)]
    rfl

theorem claim_C3_witness :
    getPixel (atkinsonStep 2 2 sampleGrid (0, 0)) 1 0 =
      (clampI ((getPixel sampleGrid 1 0 : ℤ) +
        ((getPixel sampleGrid 0 0 : ℤ) -
          (if (getPixel sampleGrid 0 0 : ℤ) < 128 then 0 else 255)).tdiv 8)
        0 255).toNat :=
  (claim_C3 2 2 sampleGrid 0 0 (by decide) (by decide)).2.2.1 (by decide)

/-! ## Checked accesses: the safety claim -/

lemma getPixelChecked_pos (g : Grid) (x y : ℕ)
    (hx : x < g.width) (hy : y < g.height) :
    getPixelChecked g x y = some (g.data x y) := by
  unfold getPixelChecked
  rw [if_pos ⟨hx, hy⟩]

lemma putPixelChecked_pos (g : Grid) (x y v : ℕ)
    (hx : x < g.width) (hy : y < g.height) :
    putPixelChecked g x y v = some (putPixel g x y v) := by
  unfold putPixelChecked
  rw [if_pos ⟨hx, hy⟩]

lemma diffuseFSChecked_cons (w h x y : ℕ) (e : ℤ) (o : ℤ × ℤ × ℕ)
    (L : List (ℤ × ℤ × ℕ)) (g : Grid) :
    diffuseFSChecked w h x y e (o :: L) g =
      (if 0 ≤ (x : ℤ) + o.1 ∧ (x : ℤ) + o.1 < (w : ℤ) ∧
          0 ≤ (y : ℤ) + o.2.1 ∧ (y : ℤ) + o.2.1 < (h : ℤ) then
        (getPixelChecked g ((x : ℤ) + o.1).toNat ((y : ℤ) + o.2.1).toNat).bind
          fun nv => putPixelChecked g ((x : ℤ) + o.1).toNat
            ((y : ℤ) + o.2.1).toNat (fsUpdate nv e o.2.2)
      else some g).bind fun g1 => diffuseFSChecked w h x y e L g1 := rfl

lemma diffuseAtkChecked_cons (w h x y : ℕ) (e : ℤ) (o : ℤ × ℤ)
    (L : List (ℤ × ℤ)) (g : Grid) :
    diffuseAtkChecked w h x y e (o :: L) g =
      (if 0 ≤ (x : ℤ) + o.1 ∧ (x : ℤ) + o.1 < (w : ℤ) ∧
          0 ≤ (y : ℤ) + o.2 ∧ (y : ℤ) + o.2 < (h : ℤ) then
        (getPixelChecked g ((x : ℤ) + o.1).toNat ((y : ℤ) + o.2).toNat).bind
          fun nv => putPixelChecked g ((x : ℤ) + o.1).toNat
            ((y : ℤ) + o.2).toNat (atkUpdate nv e)
      else some g).bind fun g1 => diffuseAtkChecked w h x y e L g1 := rfl

lemma diffuseFSChecked_eq (w h x y : ℕ) (e : ℤ) :
    ∀ (L : List (ℤ × ℤ × ℕ)) (g : Grid), g.width = w → g.height = h →
      diffuseFSChecked w h x y e L g = some (diffuseFS w h x y e L g) := by
  intro L
  induction L with
  | nil => intro g _ _; rfl
  | cons o L ih =>
      intro g hgw hgh
      rw [diffuseFSChecked_cons, diffuseFS_cons]
      by_cases hb : 0 ≤ (x : ℤ) + o.1 ∧ (x : ℤ) + o.1 < (w : ℤ) ∧
          0 ≤ (y : ℤ) + o.2.1 ∧ (y : ℤ) + o.2.1 < (h : ℤ)
      · rw [if_pos hb, if_pos hb,
          getPixelChecked_pos g _ _ (by omega) (by omega), Option.some_bind,
          putPixelChecked_pos g _ _ _ (by omega) (by omega), Option.some_bind]
        exact ih _ (by rw [putPixel_width, hgw]) (by rw [putPixel_height, hgh])
      · rw [if_neg hb, if_neg hb, Option.some_bind]
        exact ih g hgw hgh

lemma diffuseAtkChecked_eq (w h x y : ℕ) (e : ℤ) :
    ∀ (L : List (ℤ × ℤ)) (g : Grid), g.width = w → g.height = h →
      diffuseAtkChecked w h x y e L g = some (diffuseAtk w h x y e L g) := by
  intro L
  induction L with
  | nil => intro g _ _; rfl
  | cons o L ih =>
      intro g hgw hgh
      rw [diffuseAtkChecked_cons, diffuseAtk_cons]
      by_cases hb : 0 ≤ (x : ℤ) + o.1 ∧ (x : ℤ) + o.1 < (w : ℤ) ∧
          0 ≤ (y : ℤ) + o.2 ∧ (y : ℤ) + o.2 < (h : ℤ)
      · rw [if_pos hb, if_pos hb,
          getPixelChecked_pos g _ _ (by omega) (by omega), Option.some_bind,
          putPixelChecked_pos g _ _ _ (by omega) (by omega), Option.some_bind]
        exact ih _ (by rw [putPixel_width, hgw]) (by rw [putPixel_height, hgh])
      · rw [if_neg hb, if_neg hb, Option.some_bind]
        exact ih g hgw hgh

lemma floydStepChecked_eq (w h : ℕ) (g : Grid) (c : ℕ × ℕ)
    (hgw : g.width = w) (hgh : g.height = h) (hx : c.1 < w) (hy : c.2 < h) :
    floydStepChecked w h g c = some (floydStep w h g c) := by
  obtain ⟨x, y⟩ := c
  dsimp only at hx hy
  unfold floydStepChecked
  rw [getPixelChecked_pos g x y (by omega) (by omega), Option.some_bind]
  dsimp only
  rw [putPixelChecked_pos g x y _ (by omega) (by omega), Option.some_bind]
  rw [diffuseFSChecked_eq w h x y _ fsOffsets _
    (by rw [putPixel_width, hgw]) (by rw [putPixel_height, hgh])]
  rfl

lemma atkinsonStepChecked_eq (w h : ℕ) (g : Grid) (c : ℕ × ℕ)
    (hgw : g.width = w) (hgh : g.height = h) (hx : c.1 < w) (hy : c.2 < h) :
    atkinsonStepChecked w h g c = some (atkinsonStep w h g c) := by
  obtain ⟨x, y⟩ := c
  dsimp only at hx hy
  unfold atkinsonStepChecked
  rw [getPixelChecked_pos g x y (by omega) (by omega), Option.some_bind]
  dsimp only
  rw [putPixelChecked_pos g x y _ (by omega) (by omega), Option.some_bind]
  rw [diffuseAtkChecked_eq w h x y _ atkOffsets _
    (by rw [putPixel_width, hgw]) (by rw [putPixel_height, hgh])]
  rfl

lemma foldlMO_eq_foldl (w h : ℕ) (stepC : Grid → ℕ × ℕ → Option Grid)
    (step : Grid → ℕ × ℕ → Grid)
    (hstep : ∀ g c, g.width = w → g.height = h → c.1 < w → c.2 < h →
      stepC g c = some (step g c))
    (hdw : ∀ g c, (step g c).width = g.width)
    (hdh : ∀ g c, (step g c).height = g.height) :
    ∀ L : List (ℕ × ℕ), (∀ c ∈ L, c.1 < w ∧ c.2 < h) →
      ∀ g, g.width = w → g.height = h →
        foldlMO stepC L g = some (L.foldl step g) := by
  intro L
  induction L with
  | nil => intro _ g _ _; rfl
  | cons c L ih =>
      intro hL g hgw hgh
      have hc := hL c (List.mem_cons_self c L)
      rw [List.foldl_cons,
        show foldlMO stepC (c :: L) g =
          (stepC g c).bind (fun g1 => foldlMO stepC L g1) from rfl,
        hstep g c hgw hgh hc.1 hc.2, Option.some_bind]
      exact ih (fun d hd => hL d (List.mem_cons_of_mem c hd)) (step g c)
        (by rw [hdw, hgw]) (by rw [hdh, hgh])

lemma floydChecked_eq (img : Grid) :
    floydChecked img = some (floyd_steinberg_dither img) := by
  unfold floydChecked floyd_steinberg_dither
  exact foldlMO_eq_foldl img.width img.height _ _
    (fun g c hgw hgh hx hy =>
      floydStepChecked_eq img.width img.height g c hgw hgh hx hy)
    (fun g c => floydStep_width _ _ g c) (fun g c => floydStep_height _ _ g c)
    (raster img.width img.height)
    (fun c hc => by
      obtain ⟨cx, cy⟩ := c
      exact (mem_raster _ _ _ _).mp hc)
    img rfl rfl

lemma atkinsonChecked_eq (img : Grid) :
    atkinsonChecked img = some (atkinson_dither img) := by
  unfold atkinsonChecked atkinson_dither
  exact foldlMO_eq_foldl img.width img.height _ _
    (fun g c hgw hgh hx hy =>
      atkinsonStepChecked_eq img.width img.height g c hgw hgh hx hy)
    (fun g c => atkinsonStep_width _ _ g c) (fun g c => atkinsonStep_height _ _ g c)
    (raster img.width img.height)
    (fun c hc => by
      obtain ⟨cx, cy⟩ := c
      exact (mem_raster _ _ _ _).mp hc)
    img rfl rfl

lemma orderedChecked_eq (img : Grid) :
    orderedChecked img = some (ordered_dither img) := by
  unfold orderedChecked ordered_dither
  refine foldlMO_eq_foldl img.width img.height _ _ ?_
    (fun (g : Grid) (c : ℕ × ℕ) => putPixel_width g c.1 c.2 _)
    (fun (g : Grid) (c : ℕ × ℕ) => putPixel_height g c.1 c.2 _)
    (raster img.width img.height)
    (fun c hc => by
      obtain ⟨cx, cy⟩ := c
      exact (mem_raster _ _ _ _).mp hc)
    (Grid.new _ _) rfl rfl
  intro g c hgw hgh hx hy
  obtain ⟨cx, cy⟩ := c
  dsimp only at hx hy ⊢
  rw [getPixelChecked_pos img cx cy hx hy, Option.some_bind,
    putPixelChecked_pos g cx cy _ (by omega) (by omega)]
  rfl

lemma thresholdChecked_eq (img : Grid) (t : ℕ) :
    thresholdChecked img t = some (threshold_dither img t) := by
  unfold thresholdChecked threshold_dither
  refine foldlMO_eq_foldl img.width img.height _ _ ?_
    (fun (g : Grid) (c : ℕ × ℕ) => putPixel_width g c.1 c.2 _)
    (fun (g : Grid) (c : ℕ × ℕ) => putPixel_height g c.1 c.2 _)
    (raster img.width img.height)
    (fun c hc => by
      obtain ⟨cx, cy⟩ := c
      exact (mem_raster _ _ _ _).mp hc)
    (Grid.new _ _) rfl rfl
  intro g c hgw hgh hx hy
  obtain ⟨cx, cy⟩ := c
  dsimp only at hx hy ⊢
  rw [getPixelChecked_pos img cx cy hx hy, Option.some_bind,
    putPixelChecked_pos g cx cy _ (by omega) (by omega)]
  rfl

/-- C8: with every `get_pixel` / `put_pixel` carrying its bounds check
(`none` instead of a panic on an out-of-bounds access), all four algorithms
succeed on every input — in particular on a 1×1 grid — and return exactly the
unchecked result: every out-of-bounds neighbour during diffusion is skipped
by the explicit bounds test, and no access outside the grid is ever made. -/
theorem claim_C8 (img : Grid) (t : ℕ) :
    floydChecked img = some (floyd_steinberg_dither img) ∧
    atkinsonChecked img = some (atkinson_dither img) ∧
    orderedChecked img = some (ordered_dither img) ∧
    thresholdChecked img t = some (threshold_dither img t) :=
  ⟨floydChecked_eq img, atkinsonChecked_eq img, orderedChecked_eq img,
    thresholdChecked_eq img t⟩
